import Mathlib

/-!
Shallow embedding of `typestyle-react` (`src/index.ts`) and proofs of the
spec claims.

The source is a small TypeScript library with four core pieces:

* `microTaskDebounce(fn)` (lines 124-135): wraps a zero-argument operation
  so repeated trigger calls within one synchronous turn run it once, on the
  next microtask boundary.
* `memoizeUnbounded(fn, serialize)` (lines 95-119): unbounded memo cache,
  keyed by the serialized argument, warning once the miss counter hits 1000.
* `style(...args)` (lines 11-17): wraps the external TypeStyle compiler in
  `try/finally`, triggering the debounced flush regardless of outcome.
* `styled(tag, ...styles)` (lines 46-86): React component factory whose
  `render` merges class names and forwards non-reserved props.

JavaScript features are embedded as follows: exceptions become `Except`,
the JS value `undefined` becomes `Option.none`, JS objects used as string
maps become association lists with JS assignment/index semantics, and the
microtask queue becomes an explicit counter of queued continuations.
-/

namespace TSR

/-! ## Microtask debouncer (`microTaskDebounce`, src/index.ts lines 124-135)

The JS closure holds a single boolean `scheduled`.  Calling the returned
async trigger when `scheduled` is false sets it and suspends at
`await Promise.resolve()`, which enqueues the rest of the body
(`scheduled = false; fn()`) on the host's microtask queue; calling it while
`scheduled` is true does nothing.  We model the closure state together with
the host queue: `pending` counts this debouncer's queued continuations and
`runs` is a ghost counter of how many times `fn` has been invoked. -/

structure DebounceState where
  scheduled : Bool
  pending : Nat
  runs : Nat
  deriving Repr, DecidableEq

def debounceInitial : DebounceState :=
  { scheduled := false, pending := 0, runs := 0 }

/-- One call of the trigger closure: `if (!scheduled) { scheduled = true;
enqueue continuation }`, otherwise a no-op. -/
def debounceTrigger (s : DebounceState) : DebounceState :=
  if s.scheduled then s
  else { scheduled := true, pending := s.pending + 1, runs := s.runs }

/-- The host executes one queued continuation: `scheduled = false; fn()`.
The `scheduled` flag is cleared before `fn` runs, so the state seen by `fn`
(and by any `trigger` call made during `fn`) is the result state with the
run already counted. -/
def debounceRun (s : DebounceState) : DebounceState :=
  if s.pending = 0 then s
  else { scheduled := false, pending := s.pending - 1, runs := s.runs + 1 }

/-- Applies `n` trigger calls in one synchronous block. -/
def debounceTriggerN (n : Nat) (s : DebounceState) : DebounceState :=
  match n with
  | 0 => s
  | n + 1 => debounceTrigger (debounceTriggerN n s)

/-- The host drains the microtask queue (all microtasks run after the
current synchronous block and before the next macrotask). -/
def debounceDrain (s : DebounceState) : DebounceState :=
  debounceRun^[s.pending] s

/-- States reachable from a fresh debouncer by trigger calls and
continuation executions. -/
inductive DebounceReachable : DebounceState → Prop where
  | init : DebounceReachable debounceInitial
  | trigger {s} : DebounceReachable s → DebounceReachable (debounceTrigger s)
  | run {s} : DebounceReachable s → DebounceReachable (debounceRun s)

/-- The invariant tying the `scheduled` flag to the queued continuations. -/
def DebounceInv (s : DebounceState) : Prop :=
  s.pending = if s.scheduled then 1 else 0

/-! ## Unbounded memoizer (`memoizeUnbounded`, src/index.ts lines 95-119)

The JS cache is a plain object used as a string map; we embed it as an
association list with unique keys.  A stored value is a JS value that may
itself be `undefined` (our `Option.none`), and indexing a missing key also
yields `undefined` — exactly the conflation the source's
`lookup !== undefined` test relies on.  Exceptions thrown by `serialize`
or by the wrapped `fn` are embedded as `Except.error`.  Besides the
source's `cacheSize` counter, the state carries two ghost observation
counters that are not in the source: `warnCount` (number of `console.warn`
emissions) and `fnCalls` (number of invocations of the wrapped `fn`). -/

structure MemoState (V : Type) where
  cache : List (String × Option V)
  cacheSize : Nat
  warnCount : Nat
  fnCalls : Nat
  deriving Repr, DecidableEq

def memoInitial {V : Type} : MemoState V :=
  { cache := [], cacheSize := 0, warnCount := 0, fnCalls := 0 }

def cacheSizeWarn : Nat := 1000

/-- JS object indexing `cache[key]`: the stored value if the key is
present, `undefined` (`none`) otherwise. -/
def cacheGet {V : Type} (cache : List (String × Option V)) (key : String) :
    Option V :=
  match cache.find? (fun e => e.1 == key) with
  | some e => e.2
  | none => none

/-- JS object assignment `cache[key] = v`: update in place if the key is
present, append otherwise. -/
def cacheSet {V : Type} (cache : List (String × Option V)) (key : String)
    (v : Option V) : List (String × Option V) :=
  if (cache.find? (fun e => e.1 == key)).isSome then
    cache.map (fun e => if e.1 == key then (key, v) else e)
  else
    cache ++ [(key, v)]

/-- One call of the closure returned by `memoizeUnbounded(fn, serialize)`.
`fn` may act on an external state `σ` (in the repository, the debouncer
state reached through `style`); `serialize` and `fn` may throw.  Follows
the source line by line: serialize, index the cache, return the stored
value if it is not `undefined`, otherwise bump `cacheSize`, warn when it
equals `cacheSizeWarn`, invoke `fn`, store and return its result. -/
def memoizeUnboundedCall {Param E V σ : Type}
    (serialize : Param → Except E String)
    (fn : Param → σ → Except E (Option V) × σ)
    (st : MemoState V × σ) (param : Param) :
    Except E (Option V) × (MemoState V × σ) :=
  match serialize param with
  | .error e => (.error e, st)
  | .ok cacheKey =>
    match cacheGet st.1.cache cacheKey with
    | some v => (.ok (some v), st)
    | none =>
      let size := st.1.cacheSize + 1
      let wc := st.1.warnCount + (if size = cacheSizeWarn then 1 else 0)
      match fn param st.2 with
      | (.error e, ext) =>
        (.error e,
          ({ st.1 with
              cacheSize := size,
              warnCount := wc,
              fnCalls := st.1.fnCalls + 1 }, ext))
      | (.ok computed, ext) =>
        (.ok computed,
          ({ cache := cacheSet st.1.cache cacheKey computed,
             cacheSize := size,
             warnCount := wc,
             fnCalls := st.1.fnCalls + 1 }, ext))

/-- The memoizer applied to a pure (if fallible) `fn`, the general
contract the spec states for the memoizer on its own. -/
def memoizeUnboundedCallP {Param E V : Type}
    (serialize : Param → Except E String)
    (fn : Param → Except E (Option V))
    (s : MemoState V) (param : Param) : Except E (Option V) × MemoState V :=
  let r := memoizeUnboundedCall serialize (fun p (u : Unit) => (fn p, u))
    (s, ()) param
  (r.1, r.2.1)

/-- Iterated calls of a pure memoized function on one fixed argument. -/
def memoIterate {Param E V : Type} (serialize : Param → Except E String)
    (fn : Param → Except E (Option V)) (param : Param) :
    Nat → MemoState V → MemoState V
  | 0, s => s
  | n + 1, s => memoIterate serialize fn param n
      (memoizeUnboundedCallP serialize fn s param).2

/-- The warning invariant: the one-time `console.warn` has fired exactly
when the miss counter has reached `cacheSizeWarn`. -/
def WarnInvariant {V : Type} (s : MemoState V) : Prop :=
  s.warnCount = if cacheSizeWarn ≤ s.cacheSize then 1 else 0

/-- Serializer used in concrete runs: every argument maps to the key
`"k"`. -/
def cexSerialize : Nat → Except Unit String := fun _ => Except.ok "k"

/-- Wrapped function used in concrete runs: always returns the JS value
`undefined`. -/
def cexFn : Nat → Except Unit (Option String) := fun _ => Except.ok none

/-! ## Style resolution (`style` lines 11-17, `memoizedComputeClass`
lines 54-56) and rendering (`Styled.render` lines 71-84)

The external TypeStyle compiler (`typeStyle`) and flush operation
(`forceRenderStyles`) are imports, not code of this repository; the
compiler is abstracted as a fallible function on descriptor lists, and the
flush's only observable effect here is the debouncer run counter. -/

/-- A style descriptor
`false | types.NestedCSSProperties | null | undefined`
(src/index.ts line 19); `D` is the opaque type of CSS property objects. -/
inductive StyleDescriptor (D : Type) where
  | fls
  | nul
  | undef
  | css (d : D)
  deriving DecidableEq

/-- One rest-argument entry of `styled(tag, ...styles)` (line 48): a
literal descriptor or a style function of the styled props. -/
inductive StyleSpec (P D : Type) where
  | lit (d : StyleDescriptor D)
  | func (f : P → StyleDescriptor D)

/-- Line 55:
`styles.map(s => typeof s === "function" ? s(styledProps !== undefined ? styledProps : ({} as StyledProps)) : s)`.
`dflt` models the empty-object default `{}`. -/
def mapStyles {P D : Type} (dflt : P) (styles : List (StyleSpec P D))
    (styledProps : Option P) : List (StyleDescriptor D) :=
  styles.map fun s =>
    match s with
    | .lit d => d
    | .func f => f (styledProps.getD dflt)

/-- JS `try { return body } finally { fin() }` where the `finally` block
is a state update that cannot itself throw: the body's outcome (value or
exception) is returned unchanged and the `finally` effect is applied. -/
def tryFinallyEffect {E A σ : Type} (body : Except E A) (fin : σ → σ)
    (s : σ) : Except E A × σ :=
  (body, fin s)

/-- The exported `style` wrapper (lines 11-17): call the external
TypeStyle compiler and, in a `finally` block, trigger the module-level
debounced `forceRenderStyles` (line 137).  `tsCompile` stands for the
external `typeStyle` import, which may throw. -/
def styleCall {D E : Type}
    (tsCompile : List (StyleDescriptor D) → Except E String)
    (args : List (StyleDescriptor D)) (d : DebounceState) :
    Except E String × DebounceState :=
  tryFinallyEffect (tsCompile args) debounceTrigger d

/-- The non-falsy CSS objects of a descriptor list, in order. -/
def filterFalsy {D : Type} (args : List (StyleDescriptor D)) : List D :=
  args.filterMap fun a =>
    match a with
    | .css d => some d
    | _ => none

/-- Modelled from the spec: the external TypeStyle compiler (the
`typeStyle` import, whose code is not part of this repository) filters
out falsy descriptors and compiles the remaining ordered sequence of CSS
objects to a single class name (`core`). -/
def typeStyleModel {D E : Type} (core : List D → Except E String)
    (args : List (StyleDescriptor D)) : Except E String :=
  core (filterFalsy args)

/-- Lines 54-56: one call of the memoized class computation of a `styled`
factory, `memoizeUnbounded((styledProps?) => style(...styles.map(...)))`,
acting on the paired memoizer/debouncer state.  The closure's result is
the class-name string, a defined JS value, hence wrapped in `some`. -/
def memoizedComputeClass {P D E : Type}
    (tsCompile : List (StyleDescriptor D) → Except E String)
    (dflt : P) (styles : List (StyleSpec P D))
    (serialize : Option P → Except E String)
    (st : MemoState String × DebounceState) (styledProps : Option P) :
    Except E (Option String) × (MemoState String × DebounceState) :=
  memoizeUnboundedCall serialize
    (fun p d =>
      let r := styleCall tsCompile (mapStyles dflt styles p) d
      (r.1.map some, r.2))
    st styledProps

/-- The four property names consumed by `Styled.render`'s destructuring
(line 73). -/
def reservedProps : List String :=
  ["innerRef", "styled", "children", "className"]

/-- Reading a property from a props object; a missing name reads as
`undefined` (`none`). -/
def propGet {V : Type} (props : List (String × V)) (name : String) :
    Option V :=
  match props.find? (fun e => e.1 == name) with
  | some e => some e.2
  | none => none

/-- The rest object `innerProps` of the destructuring
`const { innerRef, styled, children, className: innerClassName, ...innerProps } = this.props`
(line 73): every entry whose name is none of the four consumed ones. -/
def innerProps {V : Type} (props : List (String × V)) :
    List (String × V) :=
  props.filter fun e => !(reservedProps.contains e.1)

/-- The output of `Styled.render` (lines 75-83): an element of the
factory's tag carrying the forwarded attributes, the `ref` wired to
`innerRef`, the merged class attribute, and the forwarded children. -/
structure RenderedElement (V : Type) where
  tag : String
  attrs : List (String × V)
  ref : Option V
  className : String
  children : Option V
  deriving DecidableEq

/-- The body of `Styled.render` (lines 71-84) for a component whose state holds the
computed class `stateClassName`.  `vstr` models JS string interpolation of
the caller-supplied `className` value inside the template literal
(for string-valued props it is the identity). -/
def renderStyled {V : Type} (tag : String) (vstr : V → String)
    (props : List (String × V)) (stateClassName : String) :
    RenderedElement V :=
  let innerRef := propGet props "innerRef"
  let children := propGet props "children"
  let innerClassName := propGet props "className"
  { tag := tag
    attrs := innerProps props
    ref := innerRef
    className :=
      match innerClassName with
      | some v => vstr v ++ " " ++ stateClassName
      | none => stateClassName
    children := children }

/-- Serializer used in concrete witnesses: every argument maps to the key
`"k"`. -/
def wSerialize : Nat → Except Unit String := fun _ => Except.ok "k"

/-- Wrapped function used in concrete witnesses: always returns the defined
class name `"c"`. -/
def wFn : Nat → Except Unit (Option String) := fun _ => Except.ok (some "c")

/-! ## Supporting lemmas -/

lemma debounceTriggerN_of_ne_zero (n : Nat) (hn : n ≠ 0) :
    debounceTriggerN n debounceInitial =
      { scheduled := true, pending := 1, runs := 0 } := by
  induction n with
  | zero => exact absurd rfl hn
  | succ m ih =>
    cases Nat.eq_zero_or_pos m with
    | inl h0 =>
      subst h0
      simp [debounceTriggerN, debounceTrigger, debounceInitial]
    | inr hpos =>
      have := ih (Nat.pos_iff_ne_zero.mp hpos)
      simp [debounceTriggerN, this, debounceTrigger]

lemma debounceTriggerN_runs (n : Nat) (s : DebounceState) :
    (debounceTriggerN n s).runs = s.runs := by
  induction n with
  | zero => rfl
  | succ m ih => simp [debounceTriggerN, debounceTrigger]; split <;> simp [ih]

lemma debounceDrain_scheduled_once :
    ∀ r, debounceDrain { scheduled := true, pending := 1, runs := r } =
      { scheduled := false, pending := 0, runs := r + 1 } := by
  intro r
  simp [debounceDrain, debounceRun]

lemma debounceInv_of_reachable {s : DebounceState}
    (h : DebounceReachable s) : DebounceInv s := by
  induction h with
  | init => simp [DebounceInv, debounceInitial]
  | trigger hr ih =>
    rename_i t
    unfold DebounceInv at *
    by_cases hs : t.scheduled = true
    · simpa [debounceTrigger, hs] using ih
    · simp [hs] at ih
      simp [debounceTrigger, hs, ih]
  | run hr ih =>
    rename_i t
    unfold DebounceInv at *
    by_cases hp : t.pending = 0
    · simpa [debounceRun, hp] using ih
    · simp [debounceRun, hp]
      split at ih <;> omega

lemma memo_serialize_err {Param E V σ : Type}
    {serialize : Param → Except E String}
    {fn : Param → σ → Except E (Option V) × σ}
    {st : MemoState V × σ} {param : Param} {e : E}
    (hs : serialize param = .error e) :
    memoizeUnboundedCall serialize fn st param = (.error e, st) := by
  simp [memoizeUnboundedCall, hs]

lemma memo_hit {Param E V σ : Type}
    {serialize : Param → Except E String}
    {fn : Param → σ → Except E (Option V) × σ}
    {st : MemoState V × σ} {param : Param} {k : String} {u : V}
    (hs : serialize param = .ok k)
    (hh : cacheGet st.1.cache k = some u) :
    memoizeUnboundedCall serialize fn st param = (.ok (some u), st) := by
  simp [memoizeUnboundedCall, hs, hh]

lemma memo_miss_ok {Param E V σ : Type}
    {serialize : Param → Except E String}
    {fn : Param → σ → Except E (Option V) × σ}
    {st : MemoState V × σ} {param : Param} {k : String} {w : Option V}
    {ext : σ}
    (hs : serialize param = .ok k)
    (hm : cacheGet st.1.cache k = none)
    (hf : fn param st.2 = (.ok w, ext)) :
    memoizeUnboundedCall serialize fn st param =
      (.ok w,
        ({ cache := cacheSet st.1.cache k w,
           cacheSize := st.1.cacheSize + 1,
           warnCount := st.1.warnCount +
             (if st.1.cacheSize + 1 = cacheSizeWarn then 1 else 0),
           fnCalls := st.1.fnCalls + 1 }, ext)) := by
  simp [memoizeUnboundedCall, hs, hm, hf]

lemma memo_miss_err {Param E V σ : Type}
    {serialize : Param → Except E String}
    {fn : Param → σ → Except E (Option V) × σ}
    {st : MemoState V × σ} {param : Param} {k : String} {e : E} {ext : σ}
    (hs : serialize param = .ok k)
    (hm : cacheGet st.1.cache k = none)
    (hf : fn param st.2 = (.error e, ext)) :
    memoizeUnboundedCall serialize fn st param =
      (.error e,
        ({ st.1 with
            cacheSize := st.1.cacheSize + 1,
            warnCount := st.1.warnCount +
              (if st.1.cacheSize + 1 = cacheSizeWarn then 1 else 0),
            fnCalls := st.1.fnCalls + 1 }, ext)) := by
  simp [memoizeUnboundedCall, hs, hm, hf]

lemma fst_replaceEntry {V : Type} (k : String) (v : Option V)
    (e : String × Option V) :
    (if e.1 == k then (k, v) else e).1 = e.1 := by
  by_cases he : (e.1 == k) = true
  · rw [if_pos he]
    exact (eq_of_beq he).symm
  · rw [if_neg he]

lemma cacheGet_cacheSet_self {V : Type} (c : List (String × Option V))
    (k : String) (v : Option V) :
    cacheGet (cacheSet c k v) k = v := by
  unfold cacheSet
  split
  · next hfound =>
    obtain ⟨e0, he0⟩ := Option.isSome_iff_exists.mp hfound
    have hp : (e0.1 == k) = true := by simpa using List.find?_some he0
    unfold cacheGet
    rw [List.find?_map]
    have hcomp : ((fun e : String × Option V => e.1 == k) ∘
        fun e => if e.1 == k then (k, v) else e) =
        fun e : String × Option V => e.1 == k := by
      funext e
      simp only [Function.comp_apply, fst_replaceEntry]
    rw [hcomp, he0]
    simp [hp, eq_of_beq hp]
  · next hnf =>
    unfold cacheGet
    rw [List.find?_append]
    have hnone : List.find? (fun e => e.1 == k) c = none := by
      cases hfind : List.find? (fun e => e.1 == k) c with
      | none => rfl
      | some e => rw [hfind] at hnf; simp at hnf
    rw [hnone]
    simp

lemma mem_keys_cacheSet {V : Type} (c : List (String × Option V))
    (k : String) (v : Option V) :
    k ∈ (cacheSet c k v).map Prod.fst := by
  unfold cacheSet
  split
  · next hfound =>
    obtain ⟨e0, he0⟩ := Option.isSome_iff_exists.mp hfound
    have hp : (e0.1 == k) = true := by simpa using List.find?_some he0
    have hmem : e0 ∈ c := List.mem_of_find?_eq_some he0
    rw [List.map_map]
    refine List.mem_map.mpr ⟨e0, hmem, ?_⟩
    simp [Function.comp, hp]
  · simp

lemma mem_keys_cacheSet_of_mem {V : Type} {c : List (String × Option V)}
    {k' : String} (k : String) (v : Option V)
    (h : k' ∈ c.map Prod.fst) :
    k' ∈ (cacheSet c k v).map Prod.fst := by
  unfold cacheSet
  split
  · rw [List.map_map]
    have hsame : c.map (Prod.fst ∘ fun e => if e.1 == k then (k, v) else e) =
        c.map Prod.fst := by
      apply List.map_congr_left
      intro e _
      simp only [Function.comp_apply, fst_replaceEntry]
    rw [hsame]
    exact h
  · rw [List.map_append]
    exact List.mem_append_left _ h

lemma memoP_serialize_err {Param E V : Type}
    (serialize : Param → Except E String) (fn : Param → Except E (Option V))
    (s : MemoState V) (param : Param) {e : E}
    (hs : serialize param = .error e) :
    memoizeUnboundedCallP serialize fn s param = (.error e, s) := by
  unfold memoizeUnboundedCallP
  rw [memo_serialize_err hs]

lemma memoP_hit {Param E V : Type}
    (serialize : Param → Except E String) (fn : Param → Except E (Option V))
    (s : MemoState V) (param : Param) {k : String} {u : V}
    (hs : serialize param = .ok k)
    (hh : cacheGet s.cache k = some u) :
    memoizeUnboundedCallP serialize fn s param = (.ok (some u), s) := by
  unfold memoizeUnboundedCallP
  rw [memo_hit hs hh]

lemma memoP_miss_ok {Param E V : Type}
    (serialize : Param → Except E String) (fn : Param → Except E (Option V))
    (s : MemoState V) (param : Param) {k : String} {w : Option V}
    (hs : serialize param = .ok k)
    (hm : cacheGet s.cache k = none)
    (hf : fn param = .ok w) :
    memoizeUnboundedCallP serialize fn s param =
      (.ok w,
        { cache := cacheSet s.cache k w,
          cacheSize := s.cacheSize + 1,
          warnCount := s.warnCount +
            (if s.cacheSize + 1 = cacheSizeWarn then 1 else 0),
          fnCalls := s.fnCalls + 1 }) := by
  unfold memoizeUnboundedCallP
  rw [memo_miss_ok hs hm (by rw [hf])]

lemma memoP_miss_err {Param E V : Type}
    (serialize : Param → Except E String) (fn : Param → Except E (Option V))
    (s : MemoState V) (param : Param) {k : String} {e : E}
    (hs : serialize param = .ok k)
    (hm : cacheGet s.cache k = none)
    (hf : fn param = .error e) :
    memoizeUnboundedCallP serialize fn s param =
      (.error e,
        { s with
            cacheSize := s.cacheSize + 1,
            warnCount := s.warnCount +
              (if s.cacheSize + 1 = cacheSizeWarn then 1 else 0),
            fnCalls := s.fnCalls + 1 }) := by
  unfold memoizeUnboundedCallP
  rw [memo_miss_err hs hm (by rw [hf])]

lemma memoIterate_succ_right {Param E V : Type}
    (serialize : Param → Except E String) (fn : Param → Except E (Option V))
    (p : Param) (n : Nat) (s : MemoState V) :
    memoIterate serialize fn p (n + 1) s =
      (memoizeUnboundedCallP serialize fn (memoIterate serialize fn p n s) p).2 := by
  induction n generalizing s with
  | zero => rfl
  | succ m ih =>
    show memoIterate serialize fn p (m + 1)
      ((memoizeUnboundedCallP serialize fn s p).2) = _
    rw [ih]
    rfl

lemma cex_step (s : MemoState String) (hm : cacheGet s.cache "k" = none) :
    memoizeUnboundedCallP cexSerialize cexFn s 0 =
      (.ok none,
        { cache := cacheSet s.cache "k" none,
          cacheSize := s.cacheSize + 1,
          warnCount := s.warnCount +
            (if s.cacheSize + 1 = cacheSizeWarn then 1 else 0),
          fnCalls := s.fnCalls + 1 }) :=
  memoP_miss_ok cexSerialize cexFn s 0 rfl hm rfl

lemma memoIterate_cex_closed (n : Nat) :
    memoIterate cexSerialize cexFn 0 (n + 1) memoInitial =
      { cache := [("k", none)], cacheSize := n + 1,
        warnCount := if cacheSizeWarn ≤ n + 1 then 1 else 0,
        fnCalls := n + 1 } := by
  induction n with
  | zero =>
    show (memoizeUnboundedCallP cexSerialize cexFn memoInitial 0).2 = _
    rw [cex_step memoInitial (by decide)]
    simp [memoInitial, cacheSet, cacheSizeWarn]
  | succ m ih =>
    rw [memoIterate_succ_right, ih,
      cex_step { cache := [("k", none)], cacheSize := m + 1,
                 warnCount := if cacheSizeWarn ≤ m + 1 then 1 else 0,
                 fnCalls := m + 1 }
        (show cacheGet [("k", (none : Option String))] "k" = none by decide)]
    have hcs : cacheSet [("k", (none : Option String))] "k" none =
        [("k", none)] := by decide
    have hwc : (if cacheSizeWarn ≤ m + 1 then 1 else 0) +
        (if m + 1 + 1 = cacheSizeWarn then 1 else 0) =
        if cacheSizeWarn ≤ m + 1 + 1 then 1 else 0 := by
      unfold cacheSizeWarn
      split_ifs <;> omega
    simp [hcs, hwc]

lemma memoizedComputeClass_serialize_err {P D E : Type}
    (tsCompile : List (StyleDescriptor D) → Except E String)
    (dflt : P) (styles : List (StyleSpec P D))
    (serialize : Option P → Except E String)
    (st : MemoState String × DebounceState) (styledProps : Option P)
    {e : E} (hs : serialize styledProps = .error e) :
    memoizedComputeClass tsCompile dflt styles serialize st styledProps =
      (.error e, st) := by
  unfold memoizedComputeClass
  exact memo_serialize_err hs

lemma memoizedComputeClass_miss_ok {P D E : Type}
    (tsCompile : List (StyleDescriptor D) → Except E String)
    (dflt : P) (styles : List (StyleSpec P D))
    (serialize : Option P → Except E String)
    (st : MemoState String × DebounceState) (styledProps : Option P)
    {k : String} {c : String}
    (hs : serialize styledProps = .ok k)
    (hm : cacheGet st.1.cache k = none)
    (hc : tsCompile (mapStyles dflt styles styledProps) = .ok c) :
    memoizedComputeClass tsCompile dflt styles serialize st styledProps =
      (.ok (some c),
        ({ cache := cacheSet st.1.cache k (some c),
           cacheSize := st.1.cacheSize + 1,
           warnCount := st.1.warnCount +
             (if st.1.cacheSize + 1 = cacheSizeWarn then 1 else 0),
           fnCalls := st.1.fnCalls + 1 }, debounceTrigger st.2)) := by
  unfold memoizedComputeClass
  exact memo_miss_ok hs hm (by simp [styleCall, tryFinallyEffect, hc, Except.map])

lemma memoizedComputeClass_miss_err {P D E : Type}
    (tsCompile : List (StyleDescriptor D) → Except E String)
    (dflt : P) (styles : List (StyleSpec P D))
    (serialize : Option P → Except E String)
    (st : MemoState String × DebounceState) (styledProps : Option P)
    {k : String} {e : E}
    (hs : serialize styledProps = .ok k)
    (hm : cacheGet st.1.cache k = none)
    (hc : tsCompile (mapStyles dflt styles styledProps) = .error e) :
    memoizedComputeClass tsCompile dflt styles serialize st styledProps =
      (.error e,
        ({ st.1 with
            cacheSize := st.1.cacheSize + 1,
            warnCount := st.1.warnCount +
              (if st.1.cacheSize + 1 = cacheSizeWarn then 1 else 0),
            fnCalls := st.1.fnCalls + 1 }, debounceTrigger st.2)) := by
  unfold memoizedComputeClass
  exact memo_miss_err hs hm (by simp [styleCall, tryFinallyEffect, hc, Except.map])

end TSR

/-- C1: for an operation wrapped by the microtask coalescer, N trigger calls
(N ≥ 1) in one synchronous turn invoke the operation zero times during the
turn and exactly once when the microtask queue drains (i.e. after the
synchronous block, before the next macrotask); a second synchronous block of
M ≥ 1 trigger calls after that flush yields exactly one further invocation. -/
theorem C1_microtask_coalescing (n m : Nat) (hn : 1 ≤ n) (hm : 1 ≤ m) :
    (TSR.debounceTriggerN n TSR.debounceInitial).runs = 0 ∧
    (TSR.debounceDrain (TSR.debounceTriggerN n TSR.debounceInitial)).runs = 1 ∧
    (TSR.debounceTriggerN m
      (TSR.debounceDrain (TSR.debounceTriggerN n TSR.debounceInitial))).runs = 1 ∧
    (TSR.debounceDrain (TSR.debounceTriggerN m
      (TSR.debounceDrain (TSR.debounceTriggerN n TSR.debounceInitial)))).runs = 2 := by
  have h1 := TSR.debounceTriggerN_of_ne_zero n (Nat.one_le_iff_ne_zero.mp hn)
  have h2 := TSR.debounceDrain_scheduled_once 0
  have h3 : TSR.debounceDrain (TSR.debounceTriggerN n TSR.debounceInitial) =
      { scheduled := false, pending := 0, runs := 1 } := by rw [h1]; exact h2
  refine ⟨by rw [h1], by rw [h3], ?_, ?_⟩
  · rw [h3, TSR.debounceTriggerN_runs]
  · have h4 : TSR.debounceTriggerN m
        { scheduled := false, pending := 0, runs := 1 } =
        { scheduled := true, pending := 1, runs := 1 } := by
      induction m with
      | zero => exact absurd hm (by simp)
      | succ k ih =>
        cases Nat.eq_zero_or_pos k with
        | inl h0 =>
          subst h0
          simp [TSR.debounceTriggerN, TSR.debounceTrigger]
        | inr hpos =>
          have := ih hpos
          simp [TSR.debounceTriggerN, this, TSR.debounceTrigger]
    rw [h3, h4, TSR.debounceDrain_scheduled_once 1]

/-- Witness for C1 at n = 3, m = 2. -/
theorem C1_microtask_coalescing_witness :
    (TSR.debounceTriggerN 3 TSR.debounceInitial).runs = 0 ∧
    (TSR.debounceDrain (TSR.debounceTriggerN 3 TSR.debounceInitial)).runs = 1 ∧
    (TSR.debounceTriggerN 2
      (TSR.debounceDrain (TSR.debounceTriggerN 3 TSR.debounceInitial))).runs = 1 ∧
    (TSR.debounceDrain (TSR.debounceTriggerN 2
      (TSR.debounceDrain (TSR.debounceTriggerN 3 TSR.debounceInitial)))).runs = 2 :=
  C1_microtask_coalescing 3 2 (by decide) (by decide)

/-- C3: in every reachable debouncer state, the `scheduled` flag is true
exactly while one flush continuation is queued but not yet run (so at most
one flush is scheduled-but-not-run at any time), the flag is cleared before
the wrapped operation runs, and a trigger call made during the operation's
execution schedules a new round. -/
theorem C3_scheduled_flag_invariant (s : TSR.DebounceState)
    (h : TSR.DebounceReachable s) :
    (s.pending = 1 ↔ s.scheduled = true) ∧
    s.pending ≤ 1 ∧
    (s.scheduled = true →
      (TSR.debounceRun s).scheduled = false ∧
      (TSR.debounceRun s).runs = s.runs + 1 ∧
      (TSR.debounceTrigger (TSR.debounceRun s)).scheduled = true ∧
      (TSR.debounceTrigger (TSR.debounceRun s)).pending = 1) := by
  have hinv := TSR.debounceInv_of_reachable h
  unfold TSR.DebounceInv at hinv
  constructor
  · constructor
    · intro hp
      by_contra hs
      simp [Bool.not_eq_true] at hs
      rw [hs] at hinv
      simp [hinv] at hp
    · intro hs
      rw [hs] at hinv
      simpa using hinv
  constructor
  · rcases hb : s.scheduled with _ | _ <;> rw [hb] at hinv <;>
      simp at hinv <;> omega
  · intro hs
    rw [hs] at hinv
    simp only [if_true] at hinv
    have hrun : TSR.debounceRun s =
        { scheduled := false, pending := 0, runs := s.runs + 1 } := by
      simp [TSR.debounceRun, hinv]
    rw [hrun]
    simp [TSR.debounceTrigger]

/-- Witness for C3 at the state reached by one trigger from a fresh
debouncer. -/
theorem C3_scheduled_flag_invariant_witness :
    let s := TSR.debounceTrigger TSR.debounceInitial
    (s.pending = 1 ↔ s.scheduled = true) ∧
    s.pending ≤ 1 ∧
    (s.scheduled = true →
      (TSR.debounceRun s).scheduled = false ∧
      (TSR.debounceRun s).runs = s.runs + 1 ∧
      (TSR.debounceTrigger (TSR.debounceRun s)).scheduled = true ∧
      (TSR.debounceTrigger (TSR.debounceRun s)).pending = 1) :=
  C3_scheduled_flag_invariant (TSR.debounceTrigger TSR.debounceInitial)
    (TSR.DebounceReachable.trigger TSR.DebounceReachable.init)

/-- Counterexample to C2 as stated: when the wrapped `fn` returns the JS
value `undefined` (`cexFn`), two calls with equal serialized keys (both map
to `"k"`) each invoke `fn`: the invocation count after the two calls is 2,
not at most 1, because the returned `undefined` is stored but can never be
recognised as a hit. -/
theorem C2_memoization_counterexample :
    TSR.cexSerialize 0 = TSR.cexSerialize 0 ∧
    ((TSR.memoizeUnboundedCallP TSR.cexSerialize TSR.cexFn
      (TSR.memoizeUnboundedCallP TSR.cexSerialize TSR.cexFn
        TSR.memoInitial 0).2 0).2).fnCalls = 2 := by
  exact ⟨rfl, by decide⟩

/-- C2 (amended): for every function fn memoized by `memoizeUnbounded` with
serializer `serialize`, and inputs `a`, `b` with equal serialized key `k`,
provided `fn a` returns a defined (non-`undefined`) value: the two calls
return the identical result and fn is invoked at most once across both
calls; moreover a first call with an unseen key invokes fn exactly once,
stores the result under that key, and returns it, and the second call then
invokes fn no further time. -/
theorem C2_memoization (Param E V : Type)
    (serialize : Param → Except E String) (fn : Param → Except E (Option V))
    (s : TSR.MemoState V) (a b : Param) (k : String) (v : V)
    (hsa : serialize a = Except.ok k) (hsb : serialize b = Except.ok k)
    (hfa : fn a = Except.ok (some v)) :
    (TSR.memoizeUnboundedCallP serialize fn s a).1 =
      (TSR.memoizeUnboundedCallP serialize fn
        (TSR.memoizeUnboundedCallP serialize fn s a).2 b).1 ∧
    ((TSR.memoizeUnboundedCallP serialize fn
        (TSR.memoizeUnboundedCallP serialize fn s a).2 b).2).fnCalls ≤
      s.fnCalls + 1 ∧
    (TSR.cacheGet s.cache k = none →
      (TSR.memoizeUnboundedCallP serialize fn s a).1 = Except.ok (some v) ∧
      ((TSR.memoizeUnboundedCallP serialize fn s a).2).fnCalls =
        s.fnCalls + 1 ∧
      TSR.cacheGet ((TSR.memoizeUnboundedCallP serialize fn s a).2).cache k =
        some v ∧
      ((TSR.memoizeUnboundedCallP serialize fn
        (TSR.memoizeUnboundedCallP serialize fn s a).2 b).2).fnCalls =
        s.fnCalls + 1) := by
  rcases hget : TSR.cacheGet s.cache k with _ | u
  · have h1 := TSR.memoP_miss_ok serialize fn s a hsa hget hfa
    have hc : TSR.cacheGet (TSR.cacheSet s.cache k (some v)) k = some v :=
      TSR.cacheGet_cacheSet_self s.cache k (some v)
    have h2 := TSR.memoP_hit serialize fn
      { cache := TSR.cacheSet s.cache k (some v),
        cacheSize := s.cacheSize + 1,
        warnCount := s.warnCount +
          (if s.cacheSize + 1 = TSR.cacheSizeWarn then 1 else 0),
        fnCalls := s.fnCalls + 1 } b hsb hc
    simp [h1, h2, hc]
  · have h1 := TSR.memoP_hit serialize fn s a hsa hget
    have h2 := TSR.memoP_hit serialize fn s b hsb hget
    simp [h1, h2, hget, Nat.le_succ]

/-- Witness for C2 (amended) at `serialize = wSerialize`, `fn = wFn`,
empty initial cache, `a = 0`, `b = 1`. -/
theorem C2_memoization_witness :
    TSR.wSerialize 0 = Except.ok "k" ∧ TSR.wSerialize 1 = Except.ok "k" ∧
    TSR.wFn 0 = Except.ok (some "c") ∧
    ((TSR.memoizeUnboundedCallP TSR.wSerialize TSR.wFn TSR.memoInitial 0).1 =
      (TSR.memoizeUnboundedCallP TSR.wSerialize TSR.wFn
        (TSR.memoizeUnboundedCallP TSR.wSerialize TSR.wFn
          TSR.memoInitial 0).2 1).1 ∧
    ((TSR.memoizeUnboundedCallP TSR.wSerialize TSR.wFn
        (TSR.memoizeUnboundedCallP TSR.wSerialize TSR.wFn
          TSR.memoInitial 0).2 1).2).fnCalls ≤
      (TSR.memoInitial (V := String)).fnCalls + 1 ∧
    (TSR.cacheGet (TSR.memoInitial (V := String)).cache "k" = none →
      (TSR.memoizeUnboundedCallP TSR.wSerialize TSR.wFn
        TSR.memoInitial 0).1 = Except.ok (some "c") ∧
      ((TSR.memoizeUnboundedCallP TSR.wSerialize TSR.wFn
        TSR.memoInitial 0).2).fnCalls = (TSR.memoInitial (V := String)).fnCalls + 1 ∧
      TSR.cacheGet ((TSR.memoizeUnboundedCallP TSR.wSerialize TSR.wFn
        TSR.memoInitial 0).2).cache "k" = some "c" ∧
      ((TSR.memoizeUnboundedCallP TSR.wSerialize TSR.wFn
        (TSR.memoizeUnboundedCallP TSR.wSerialize TSR.wFn
          TSR.memoInitial 0).2 1).2).fnCalls =
        (TSR.memoInitial (V := String)).fnCalls + 1)) :=
  ⟨rfl, rfl, rfl,
    C2_memoization Nat Unit String TSR.wSerialize TSR.wFn TSR.memoInitial
      0 1 "k" "c" rfl rfl rfl⟩

/-- Counterexample to C9 as stated: running a memoized function whose
wrapped `fn` always returns `undefined` 1000 times on one argument emits
the warning (no warning after 999 calls, one after 1000), yet the number
of distinct cached entries is 1 throughout and never reaches 1000: the
warning fires when the miss counter, not the distinct-entry count, reaches
the high-water mark. -/
theorem C9_cache_warning_counterexample :
    (TSR.memoIterate TSR.cexSerialize TSR.cexFn 0 999
      TSR.memoInitial).warnCount = 0 ∧
    (TSR.memoIterate TSR.cexSerialize TSR.cexFn 0 1000
      TSR.memoInitial).warnCount = 1 ∧
    (TSR.memoIterate TSR.cexSerialize TSR.cexFn 0 1000
      TSR.memoInitial).cache.length = 1 ∧
    (TSR.memoIterate TSR.cexSerialize TSR.cexFn 0 1000
      TSR.memoInitial).cacheSize = 1000 := by
  have h999 := TSR.memoIterate_cex_closed 998
  have h1000 := TSR.memoIterate_cex_closed 999
  norm_num [TSR.cacheSizeWarn] at h999 h1000
  rw [h999, h1000]
  exact ⟨rfl, rfl, rfl, rfl⟩

/-- C9 (amended): the memoizer's internal counter is incremented on every
cache miss and unchanged on a hit, and the one-time diagnostic warning is
emitted exactly when that miss counter (rather than the number of distinct
cached entries) first reaches the high-water mark of 1000; the warning is
non-fatal: it does not change the returned value or the cache, and no
cache entry is ever evicted. -/
theorem C9_cache_warning (Param E V : Type)
    (serialize : Param → Except E String) (fn : Param → Except E (Option V))
    (s : TSR.MemoState V) (param : Param)
    (hw : TSR.WarnInvariant s) :
    TSR.WarnInvariant (TSR.memoizeUnboundedCallP serialize fn s param).2 ∧
    (∀ k u, serialize param = Except.ok k →
      TSR.cacheGet s.cache k = some u →
      (TSR.memoizeUnboundedCallP serialize fn s param).2 = s) ∧
    (∀ k, serialize param = Except.ok k →
      TSR.cacheGet s.cache k = none →
      ((TSR.memoizeUnboundedCallP serialize fn s param).2).cacheSize =
        s.cacheSize + 1) ∧
    (∀ w, (TSR.memoizeUnboundedCallP serialize fn
        { s with warnCount := w } param).1 =
      (TSR.memoizeUnboundedCallP serialize fn s param).1 ∧
      ((TSR.memoizeUnboundedCallP serialize fn
        { s with warnCount := w } param).2).cache =
      ((TSR.memoizeUnboundedCallP serialize fn s param).2).cache) ∧
    (∀ q, q ∈ s.cache.map Prod.fst →
      q ∈ ((TSR.memoizeUnboundedCallP serialize fn s param).2).cache.map
        Prod.fst) := by
  rcases hser : serialize param with e | k
  · have h1 := TSR.memoP_serialize_err serialize fn s param hser
    have h2 : ∀ w, TSR.memoizeUnboundedCallP serialize fn
        { s with warnCount := w } param =
        (Except.error e, { s with warnCount := w }) :=
      fun w => TSR.memoP_serialize_err serialize fn
        { s with warnCount := w } param hser
    refine ⟨?_, ?_, ?_, ?_, ?_⟩
    · rw [h1]; exact hw
    · intro k u hk hu; exact Except.noConfusion hk
    · intro k hk hm0; exact Except.noConfusion hk
    · intro w; rw [h1, h2 w]; exact ⟨rfl, rfl⟩
    · intro q hq; rw [h1]; exact hq
  · rcases hget : TSR.cacheGet s.cache k with _ | u
    · rcases hfn : fn param with e | w0
      · have h1 := TSR.memoP_miss_err serialize fn s param hser hget hfn
        have h2 : ∀ w, TSR.memoizeUnboundedCallP serialize fn
            { s with warnCount := w } param =
            (Except.error e,
              { s with
                  cacheSize := s.cacheSize + 1,
                  warnCount := w +
                    (if s.cacheSize + 1 = TSR.cacheSizeWarn then 1 else 0),
                  fnCalls := s.fnCalls + 1 }) :=
          fun w => TSR.memoP_miss_err serialize fn
            { s with warnCount := w } param hser hget hfn
        refine ⟨?_, ?_, ?_, ?_, ?_⟩
        · rw [h1]
          unfold TSR.WarnInvariant at *
          show s.warnCount +
              (if s.cacheSize + 1 = TSR.cacheSizeWarn then 1 else 0) =
            if TSR.cacheSizeWarn ≤ s.cacheSize + 1 then 1 else 0
          rw [hw]
          split_ifs <;> omega
        · intro k0 u hk0 hu
          injection hk0 with hkk
          subst hkk
          rw [hget] at hu
          simp at hu
        · intro k0 hk0 hm0; rw [h1]
        · intro w; rw [h1, h2 w]; exact ⟨rfl, rfl⟩
        · intro q hq; rw [h1]; exact hq
      · have h1 := TSR.memoP_miss_ok serialize fn s param hser hget hfn
        have h2 : ∀ w, TSR.memoizeUnboundedCallP serialize fn
            { s with warnCount := w } param =
            (Except.ok w0,
              { cache := TSR.cacheSet s.cache k w0,
                cacheSize := s.cacheSize + 1,
                warnCount := w +
                  (if s.cacheSize + 1 = TSR.cacheSizeWarn then 1 else 0),
                fnCalls := s.fnCalls + 1 }) :=
          fun w => TSR.memoP_miss_ok serialize fn
            { s with warnCount := w } param hser hget hfn
        refine ⟨?_, ?_, ?_, ?_, ?_⟩
        · rw [h1]
          unfold TSR.WarnInvariant at *
          show s.warnCount +
              (if s.cacheSize + 1 = TSR.cacheSizeWarn then 1 else 0) =
            if TSR.cacheSizeWarn ≤ s.cacheSize + 1 then 1 else 0
          rw [hw]
          split_ifs <;> omega
        · intro k0 u hk0 hu
          injection hk0 with hkk
          subst hkk
          rw [hget] at hu
          simp at hu
        · intro k0 hk0 hm0; rw [h1]
        · intro w; rw [h1, h2 w]; exact ⟨rfl, rfl⟩
        · intro q hq
          rw [h1]
          exact TSR.mem_keys_cacheSet_of_mem k w0 hq
    · have h1 := TSR.memoP_hit serialize fn s param hser hget
      have h2 : ∀ w, TSR.memoizeUnboundedCallP serialize fn
          { s with warnCount := w } param =
          (Except.ok (some u), { s with warnCount := w }) :=
        fun w => TSR.memoP_hit serialize fn
          { s with warnCount := w } param hser hget
      refine ⟨?_, ?_, ?_, ?_, ?_⟩
      · rw [h1]; exact hw
      · intro k0 u0 hk0 hu0; rw [h1]
      · intro k0 hk0 hm0
        injection hk0 with hkk
        subst hkk
        rw [hget] at hm0
        simp at hm0
      · intro w; rw [h1, h2 w]; exact ⟨rfl, rfl⟩
      · intro q hq; rw [h1]; exact hq

/-- Witness for C9 (amended) at `wSerialize`, `wFn`, the fresh memo state,
argument 0. -/
theorem C9_cache_warning_witness :
    TSR.WarnInvariant (TSR.memoInitial (V := String)) ∧
    (TSR.WarnInvariant
      (TSR.memoizeUnboundedCallP TSR.wSerialize TSR.wFn TSR.memoInitial 0).2 ∧
    (∀ k u, TSR.wSerialize 0 = Except.ok k →
      TSR.cacheGet (TSR.memoInitial (V := String)).cache k = some u →
      (TSR.memoizeUnboundedCallP TSR.wSerialize TSR.wFn
        TSR.memoInitial 0).2 = TSR.memoInitial) ∧
    (∀ k, TSR.wSerialize 0 = Except.ok k →
      TSR.cacheGet (TSR.memoInitial (V := String)).cache k = none →
      ((TSR.memoizeUnboundedCallP TSR.wSerialize TSR.wFn
        TSR.memoInitial 0).2).cacheSize =
        (TSR.memoInitial (V := String)).cacheSize + 1) ∧
    (∀ w, (TSR.memoizeUnboundedCallP TSR.wSerialize TSR.wFn
        { TSR.memoInitial (V := String) with warnCount := w } 0).1 =
      (TSR.memoizeUnboundedCallP TSR.wSerialize TSR.wFn
        TSR.memoInitial 0).1 ∧
      ((TSR.memoizeUnboundedCallP TSR.wSerialize TSR.wFn
        { TSR.memoInitial (V := String) with warnCount := w } 0).2).cache =
      ((TSR.memoizeUnboundedCallP TSR.wSerialize TSR.wFn
        TSR.memoInitial 0).2).cache) ∧
    (∀ q, q ∈ (TSR.memoInitial (V := String)).cache.map Prod.fst →
      q ∈ ((TSR.memoizeUnboundedCallP TSR.wSerialize TSR.wFn
        TSR.memoInitial 0).2).cache.map Prod.fst)) :=
  ⟨by unfold TSR.WarnInvariant; decide,
    C9_cache_warning Nat Unit String TSR.wSerialize TSR.wFn TSR.memoInitial 0
      (by unfold TSR.WarnInvariant; decide)⟩

/-- C10: the memoizer decides a hit by testing whether the stored value is
not `undefined` rather than whether the key is present: whenever the
wrapped `fn` returns `undefined` for `p` and the cache holds no defined
value under `p`'s serialized key (in particular when the key is present
but maps to a stored `undefined`), the call is treated as a miss — `fn`
is invoked again and the size counter is re-incremented — and afterwards
the key is present in the cache yet still holds no defined value, so
every later call with `p` misses again. -/
theorem C10_undefined_always_miss (Param E V : Type)
    (serialize : Param → Except E String) (fn : Param → Except E (Option V))
    (s : TSR.MemoState V) (p : Param) (k : String)
    (hs : serialize p = Except.ok k) (hf : fn p = Except.ok none)
    (hh : TSR.cacheGet s.cache k = none) :
    (TSR.memoizeUnboundedCallP serialize fn s p).1 = Except.ok none ∧
    ((TSR.memoizeUnboundedCallP serialize fn s p).2).fnCalls =
      s.fnCalls + 1 ∧
    ((TSR.memoizeUnboundedCallP serialize fn s p).2).cacheSize =
      s.cacheSize + 1 ∧
    k ∈ ((TSR.memoizeUnboundedCallP serialize fn s p).2).cache.map Prod.fst ∧
    TSR.cacheGet ((TSR.memoizeUnboundedCallP serialize fn s p).2).cache k =
      none := by
  have h1 := TSR.memoP_miss_ok serialize fn s p hs hh hf
  rw [h1]
  exact ⟨rfl, rfl, rfl, TSR.mem_keys_cacheSet s.cache k none,
    TSR.cacheGet_cacheSet_self s.cache k none⟩

/-- Witness for C10 at the state reached after one call (so the key `"k"`
is already present in the cache, storing `undefined`), argument 1. -/
theorem C10_undefined_always_miss_witness :
    TSR.cexSerialize 1 = Except.ok "k" ∧
    TSR.cexFn 1 = Except.ok none ∧
    "k" ∈ ((TSR.memoizeUnboundedCallP TSR.cexSerialize TSR.cexFn
      TSR.memoInitial 0).2).cache.map Prod.fst ∧
    TSR.cacheGet ((TSR.memoizeUnboundedCallP TSR.cexSerialize TSR.cexFn
      TSR.memoInitial 0).2).cache "k" = none ∧
    ((TSR.memoizeUnboundedCallP TSR.cexSerialize TSR.cexFn
        (TSR.memoizeUnboundedCallP TSR.cexSerialize TSR.cexFn
          TSR.memoInitial 0).2 1).1 = Except.ok none ∧
     ((TSR.memoizeUnboundedCallP TSR.cexSerialize TSR.cexFn
        (TSR.memoizeUnboundedCallP TSR.cexSerialize TSR.cexFn
          TSR.memoInitial 0).2 1).2).fnCalls =
       ((TSR.memoizeUnboundedCallP TSR.cexSerialize TSR.cexFn
         TSR.memoInitial 0).2).fnCalls + 1 ∧
     ((TSR.memoizeUnboundedCallP TSR.cexSerialize TSR.cexFn
        (TSR.memoizeUnboundedCallP TSR.cexSerialize TSR.cexFn
          TSR.memoInitial 0).2 1).2).cacheSize =
       ((TSR.memoizeUnboundedCallP TSR.cexSerialize TSR.cexFn
         TSR.memoInitial 0).2).cacheSize + 1 ∧
     "k" ∈ ((TSR.memoizeUnboundedCallP TSR.cexSerialize TSR.cexFn
        (TSR.memoizeUnboundedCallP TSR.cexSerialize TSR.cexFn
          TSR.memoInitial 0).2 1).2).cache.map Prod.fst ∧
     TSR.cacheGet ((TSR.memoizeUnboundedCallP TSR.cexSerialize TSR.cexFn
        (TSR.memoizeUnboundedCallP TSR.cexSerialize TSR.cexFn
          TSR.memoInitial 0).2 1).2).cache "k" = none) :=
  ⟨rfl, rfl, by decide, by decide,
    C10_undefined_always_miss Nat Unit String TSR.cexSerialize TSR.cexFn
      (TSR.memoizeUnboundedCallP TSR.cexSerialize TSR.cexFn
        TSR.memoInitial 0).2 1 "k" rfl rfl (by decide)⟩

/-- C4: the exported `style` wrapper returns the external compiler's
outcome unmodified — in particular an exception propagates as-is — and the
`finally` block triggers the coalesced flush regardless of success or
failure (from a quiescent debouncer, a flush becomes scheduled). -/
theorem C4_style_flush_on_error (D E : Type)
    (tsCompile : List (TSR.StyleDescriptor D) → Except E String)
    (args : List (TSR.StyleDescriptor D)) (d : TSR.DebounceState) :
    (TSR.styleCall tsCompile args d).1 = tsCompile args ∧
    (TSR.styleCall tsCompile args d).2 = TSR.debounceTrigger d ∧
    (∀ e, tsCompile args = Except.error e →
      (TSR.styleCall tsCompile args d).1 = Except.error e) ∧
    (d.scheduled = false →
      ((TSR.styleCall tsCompile args d).2).scheduled = true) := by
  refine ⟨rfl, rfl, ?_, ?_⟩
  · intro e he
    exact he
  · intro hs
    simp [TSR.styleCall, TSR.tryFinallyEffect, TSR.debounceTrigger, hs]

/-- Witness for C4 with a compiler that throws, from a quiescent
debouncer: the error propagates and the flush is scheduled anyway. -/
theorem C4_style_flush_on_error_witness :
    (TSR.styleCall
      (fun _ : List (TSR.StyleDescriptor Nat) => (Except.error 7 : Except Nat String))
      [] TSR.debounceInitial).1 = Except.error 7 ∧
    ((TSR.styleCall
      (fun _ : List (TSR.StyleDescriptor Nat) => (Except.error 7 : Except Nat String))
      [] TSR.debounceInitial).2).scheduled = true :=
  ⟨(C4_style_flush_on_error Nat Nat (fun _ => Except.error 7) []
      TSR.debounceInitial).2.2.1 7 rfl,
   (C4_style_flush_on_error Nat Nat (fun _ => Except.error 7) []
      TSR.debounceInitial).2.2.2 rfl⟩

/-- C5: style resolution hands the descriptor sequence to the
falsy-filtering external compiler, so resolving the literal descriptor
sequence `[false, css, null]` behaves identically — same returned value
and same flush state — to resolving `[css]`, for every core compiler,
styled props and debouncer state. -/
theorem C5_falsy_filtering (P D E : Type) (core : List D → Except E String)
    (dflt : P) (styledProps : Option P) (d : TSR.DebounceState) (x : D) :
    TSR.styleCall (TSR.typeStyleModel core)
      (TSR.mapStyles dflt
        [TSR.StyleSpec.lit TSR.StyleDescriptor.fls,
         TSR.StyleSpec.lit (TSR.StyleDescriptor.css x),
         TSR.StyleSpec.lit TSR.StyleDescriptor.nul] styledProps) d =
    TSR.styleCall (TSR.typeStyleModel core)
      (TSR.mapStyles dflt [TSR.StyleSpec.lit (TSR.StyleDescriptor.css x)]
        styledProps) d := by
  simp [TSR.styleCall, TSR.tryFinallyEffect, TSR.typeStyleModel,
    TSR.mapStyles, TSR.filterFalsy]

/-- C6: the rendered element's final class attribute is the
caller-supplied `className`, one space, then the computed class when a
caller `className` was supplied, and exactly the computed class
otherwise. -/
theorem C6_className_merge (V : Type) (vstr : V → String) (tag : String)
    (props : List (String × V)) (cls : String) :
    (TSR.propGet props "className" = none →
      (TSR.renderStyled tag vstr props cls).className = cls) ∧
    (∀ v, TSR.propGet props "className" = some v →
      (TSR.renderStyled tag vstr props cls).className =
        vstr v ++ " " ++ cls) := by
  constructor
  · intro h
    simp [TSR.renderStyled, h]
  · intro v h
    simp [TSR.renderStyled, h]

/-- Witness for C6: with caller `className="foo"` the rendered class is
`"foo" ++ " " ++ computed`; without one it is exactly the computed
class. -/
theorem C6_className_merge_witness :
    TSR.propGet [("className", "foo")] "className" = some "foo" ∧
    (TSR.renderStyled "span" (fun s => s) [("className", "foo")]
      "c").className = "foo" ++ " " ++ "c" ∧
    TSR.propGet ([] : List (String × String)) "className" = none ∧
    (TSR.renderStyled "span" (fun s => s) [] "c").className = "c" :=
  ⟨by decide,
   (C6_className_merge String (fun s => s) "span" [("className", "foo")]
      "c").2 "foo" (by decide),
   by decide,
   (C6_className_merge String (fun s => s) "span" [] "c").1 (by decide)⟩

/-- C7: rendering strips exactly the reserved properties `styled`,
`innerRef`, `children`, `className` from the forwarded attributes, passes
every other caller-supplied entry through unchanged, wires `innerRef` as
the element's ref hook, and passes `children` through unmodified. -/
theorem C7_prop_forwarding (V : Type) (vstr : V → String) (tag : String)
    (props : List (String × V)) (cls : String) :
    (∀ n v, (n, v) ∈ (TSR.renderStyled tag vstr props cls).attrs ↔
      ((n, v) ∈ props ∧ n ∉ TSR.reservedProps)) ∧
    (TSR.renderStyled tag vstr props cls).ref =
      TSR.propGet props "innerRef" ∧
    (TSR.renderStyled tag vstr props cls).children =
      TSR.propGet props "children" := by
  refine ⟨?_, rfl, rfl⟩
  intro n v
  simp [TSR.renderStyled, TSR.innerProps, List.mem_filter]

/-- Witness for C7 at a concrete props object holding one reserved and
one non-reserved entry. -/
theorem C7_prop_forwarding_witness :
    (∀ n v, (n, v) ∈ (TSR.renderStyled "span" (fun s => s)
        [("id", "i"), ("styled", "s")] "c").attrs ↔
      ((n, v) ∈ [("id", "i"), ("styled", "s")] ∧
        n ∉ TSR.reservedProps)) ∧
    (TSR.renderStyled "span" (fun s => s)
      [("id", "i"), ("styled", "s")] "c").ref =
      TSR.propGet [("id", "i"), ("styled", "s")] "innerRef" ∧
    (TSR.renderStyled "span" (fun s => s)
      [("id", "i"), ("styled", "s")] "c").children =
      TSR.propGet [("id", "i"), ("styled", "s")] "children" :=
  C7_prop_forwarding String (fun s => s) "span"
    [("id", "i"), ("styled", "s")] "c"

/-- C8: a memoized resolution is atomic: a miss with a successful compile
returns the class name, stores it under the serialized key and triggers
the flush; a miss with a failing compile propagates the exception with
the cache unchanged (nothing cached for the key) while the flush is still
triggered; and a failing `serialize` propagates its exception with the
entire state, debouncer included, unchanged. -/
theorem C8_resolution_atomicity (P D E : Type)
    (tsCompile : List (TSR.StyleDescriptor D) → Except E String)
    (dflt : P) (styles : List (TSR.StyleSpec P D))
    (serialize : Option P → Except E String)
    (st : TSR.MemoState String × TSR.DebounceState)
    (styledProps : Option P) :
    (∀ e, serialize styledProps = Except.error e →
      TSR.memoizedComputeClass tsCompile dflt styles serialize st
        styledProps = (Except.error e, st)) ∧
    (∀ k c, serialize styledProps = Except.ok k →
      TSR.cacheGet st.1.cache k = none →
      tsCompile (TSR.mapStyles dflt styles styledProps) = Except.ok c →
      (TSR.memoizedComputeClass tsCompile dflt styles serialize st
        styledProps).1 = Except.ok (some c) ∧
      TSR.cacheGet (((TSR.memoizedComputeClass tsCompile dflt styles
        serialize st styledProps).2).1).cache k = some c ∧
      ((TSR.memoizedComputeClass tsCompile dflt styles serialize st
        styledProps).2).2 = TSR.debounceTrigger st.2) ∧
    (∀ k e, serialize styledProps = Except.ok k →
      TSR.cacheGet st.1.cache k = none →
      tsCompile (TSR.mapStyles dflt styles styledProps) = Except.error e →
      (TSR.memoizedComputeClass tsCompile dflt styles serialize st
        styledProps).1 = Except.error e ∧
      (((TSR.memoizedComputeClass tsCompile dflt styles serialize st
        styledProps).2).1).cache = st.1.cache ∧
      ((TSR.memoizedComputeClass tsCompile dflt styles serialize st
        styledProps).2).2 = TSR.debounceTrigger st.2) := by
  refine ⟨?_, ?_, ?_⟩
  · intro e he
    exact TSR.memoizedComputeClass_serialize_err tsCompile dflt styles
      serialize st styledProps he
  · intro k c hk hm hc
    have h1 := TSR.memoizedComputeClass_miss_ok tsCompile dflt styles
      serialize st styledProps hk hm hc
    rw [h1]
    exact ⟨rfl, TSR.cacheGet_cacheSet_self st.1.cache k (some c), rfl⟩
  · intro k e hk hm hc
    have h1 := TSR.memoizedComputeClass_miss_err tsCompile dflt styles
      serialize st styledProps hk hm hc
    rw [h1]
    exact ⟨rfl, rfl, rfl⟩

/-- Witness for C8 at concrete success and failure compilers from the
fresh paired state. -/
theorem C8_resolution_atomicity_witness :
    ((TSR.memoizedComputeClass
      (fun _ : List (TSR.StyleDescriptor Nat) => (Except.ok "c" : Except Nat String))
      0 [] (fun _ : Option Nat => Except.ok "k")
      (TSR.memoInitial, TSR.debounceInitial) none).1 = Except.ok (some "c") ∧
     TSR.cacheGet (((TSR.memoizedComputeClass
      (fun _ : List (TSR.StyleDescriptor Nat) => (Except.ok "c" : Except Nat String))
      0 [] (fun _ : Option Nat => Except.ok "k")
      (TSR.memoInitial, TSR.debounceInitial) none).2).1).cache "k" =
       some "c" ∧
     ((TSR.memoizedComputeClass
      (fun _ : List (TSR.StyleDescriptor Nat) => (Except.ok "c" : Except Nat String))
      0 [] (fun _ : Option Nat => Except.ok "k")
      (TSR.memoInitial, TSR.debounceInitial) none).2).2 =
       TSR.debounceTrigger TSR.debounceInitial) ∧
    ((TSR.memoizedComputeClass
      (fun _ : List (TSR.StyleDescriptor Nat) => (Except.error 7 : Except Nat String))
      0 [] (fun _ : Option Nat => Except.ok "k")
      (TSR.memoInitial, TSR.debounceInitial) none).1 = Except.error 7 ∧
     (((TSR.memoizedComputeClass
      (fun _ : List (TSR.StyleDescriptor Nat) => (Except.error 7 : Except Nat String))
      0 [] (fun _ : Option Nat => Except.ok "k")
      (TSR.memoInitial, TSR.debounceInitial) none).2).1).cache =
       (TSR.memoInitial (V := String)).cache ∧
     ((TSR.memoizedComputeClass
      (fun _ : List (TSR.StyleDescriptor Nat) => (Except.error 7 : Except Nat String))
      0 [] (fun _ : Option Nat => Except.ok "k")
      (TSR.memoInitial, TSR.debounceInitial) none).2).2 =
       TSR.debounceTrigger TSR.debounceInitial) :=
  ⟨(C8_resolution_atomicity Nat Nat Nat (fun _ => Except.ok "c") 0 []
      (fun _ => Except.ok "k") (TSR.memoInitial, TSR.debounceInitial)
      none).2.1 "k" "c" rfl (by decide) rfl,
   (C8_resolution_atomicity Nat Nat Nat (fun _ => Except.error 7) 0 []
      (fun _ => Except.ok "k") (TSR.memoInitial, TSR.debounceInitial)
      none).2.2 "k" 7 rfl (by decide) rfl⟩
